import Mathlib

/-!
Shallow embedding of src/animaloc/eval/stitchers.py: the dense-map stitcher
(class Stitcher) and the detection stitcher (class FasterRCNNStitcher),
together with a spec-modelled tiling component (ImageToPatches from
animaloc.data, which is not part of the sources).  Python numbers (floats and
ints) are modelled as rationals; tensors are modelled as shape data plus a
total indexing function, so that every definition is executable pointwise.
Python exceptions are modelled with an Except monad.
-/

namespace Stitching

/-- Numeric values (Python floats and ints) are modelled as rationals. -/
abbrev Val := ℚ

/-- A channel-first tensor of shape (C, H, W).  Entries of the indexing
function outside the shape are irrelevant to the embedding. -/
structure Tensor3 where
  C : ℕ
  H : ℕ
  W : ℕ
  data : ℕ → ℕ → ℕ → Val

/-- A batch tensor of shape (N, C, H, W). -/
structure Tensor4 where
  N : ℕ
  C : ℕ
  H : ℕ
  W : ℕ
  data : ℕ → ℕ → ℕ → ℕ → Val

/-- Python exceptions surfaced by the embedded code paths. -/
inductive PyErr where
  | indexError
  | typeError
  | assertionError
  deriving DecidableEq

/-- Modelled from the spec: ImageToPatches (animaloc.data) is not under src/.
Spec section 4.1: the number of patches along one axis is the smallest count
such that patches of size k offset by the stride s cover the extent dim; the
last patch may extend past the boundary.  Defined for positive stride, which
the spec requires. -/
def countPatches (dim k s : ℕ) : ℕ :=
  if dim ≤ k then 1 else 1 + (dim - k + s - 1) / s

/-- Modelled from the spec: make_patches of ImageToPatches.  Patches are
enumerated row-major (row 0 all columns, then row 1, ...); a patch reaching
past the image boundary is zero-padded by the extractor (spec section 4.1:
padding is external behavior). -/
def makePatches (img : Tensor3) (ph pw o : ℕ) : Tensor4 :=
  let sh := ph - o
  let sw := pw - o
  let nrow := countPatches img.H ph sh
  let ncol := countPatches img.W pw sw
  { N := nrow * ncol, C := img.C, H := ph, W := pw,
    data := fun l c i j =>
      let r := l / ncol
      let cl := l % ncol
      if r * sh + i < img.H ∧ cl * sw + j < img.W then
        img.data c (r * sh + i) (cl * sw + j)
      else 0 }

/-- Embedding of torch.nn.functional.fold as invoked by Stitcher._patch_maps:
overlap-add of N kernel windows of size (k0, k1) arranged row-major at stride
(s0, s1) into an output of size (O0, O1).  The number of windows along the
second axis is derived from the sizes, exactly as F.fold derives it. -/
def foldOp (maps : Tensor4) (O0 O1 k0 k1 s0 s1 : ℕ) : Tensor3 :=
  let nb1 := (O1 - k1) / s1 + 1
  { C := maps.C, H := O0, W := O1,
    data := fun c y x =>
      ((List.range maps.N).map (fun l =>
        let b0 := l / nb1
        let b1 := l % nb1
        if b0 * s0 ≤ y ∧ y < b0 * s0 + k0 ∧ b1 * s1 ≤ x ∧ x < b1 * s1 + k1 then
          maps.data l c (y - b0 * s0) (x - b1 * s1)
        else 0)).sum }

/-- Python range(0, O, s) for s > 0 (the generator inside the lambda fn of
Stitcher._max_fold). -/
def stepRange (O s : ℕ) : List ℕ :=
  if s = 0 then [] else (List.range ((O + s - 1) / s)).map (fun i => i * s)

/-- The lambda fn of Stitcher._max_fold: candidate kernel windows along one
axis, with the final candidate dropped (the Python slice drops the last
element of the list). -/
def axisLocs (O k s : ℕ) : List (ℕ × ℕ) :=
  ((stepRange O s).map (fun i => (i, i + k))).dropLast

/-- The locs list of Stitcher._max_fold: height windows outer, width windows
inner, each entry (y0, y1, x0, x1). -/
def maxLocs (O0 O1 k0 k1 s0 s1 : ℕ) : List (ℕ × ℕ × ℕ × ℕ) :=
  ((axisLocs O0 k0 s0).map (fun hw =>
    (axisLocs O1 k1 s1).map (fun ww => (hw.1, hw.2, ww.1, ww.2)))).flatten

/-- One iteration of the loop in Stitcher._max_fold: write patch p.2 of maps
into a zero buffer restricted to the window p.1, then take the elementwise
maximum with the running accumulator. -/
def maxStep (maps : Tensor4) (out : Tensor3) (p : (ℕ × ℕ × ℕ × ℕ) × ℕ) : Tensor3 :=
  { C := out.C, H := out.H, W := out.W,
    data := fun c y x =>
      max (out.data c y x)
        (if p.1.1 ≤ y ∧ y < p.1.2.1 ∧ p.1.2.2.1 ≤ x ∧ x < p.1.2.2.2 then
          maps.data p.2 c (y - p.1.1) (x - p.1.2.2.1)
        else 0) }

/-- Stitcher._max_fold: fold the windows zipped with the patches over a
zero-valued output tensor.  zip truncates to the shorter list, as in Python. -/
def maxFold (maps : Tensor4) (O0 O1 k0 k1 s0 s1 : ℕ) : Tensor3 :=
  ((maxLocs O0 O1 k0 k1 s0 s1).zip (List.range maps.N)).foldl (maxStep maps)
    { C := maps.C, H := O0, W := O1, data := fun _ _ _ => 0 }

/-- The values contributed at pixel (c, y, x) by the (window, patch) pairs
that Stitcher._max_fold actually writes, in write order. -/
def maxContribs (maps : Tensor4) (O0 O1 k0 k1 s0 s1 c y x : ℕ) : List Val :=
  ((maxLocs O0 O1 k0 k1 s0 s1).zip (List.range maps.N)).filterMap (fun p =>
    if p.1.1 ≤ y ∧ y < p.1.2.1 ∧ p.1.2.2.1 ≤ x ∧ x < p.1.2.2.2 then
      some (maps.data p.2 c (y - p.1.1) (x - p.1.2.2.1))
    else none)

/-- The configuration fields stored by Stitcher.__init__. -/
structure StitcherCfg where
  modelIsModule : Bool
  ph : ℕ
  pw : ℕ
  overlap : ℕ
  batchSize : ℕ
  downRatio : ℕ
  up : Bool
  reduction : String
  deriving DecidableEq

/-- Stitcher.__init__: first the isinstance assert on the model, then the
assert on the reduction string, then plain field assignment.  No other check
is performed at construction time. -/
def stitcherInit (modelIsModule : Bool) (ph pw o bs dr : ℕ) (up : Bool)
    (reduction : String) : Except PyErr StitcherCfg :=
  if modelIsModule = false then .error .assertionError
  else if reduction = "sum" ∨ reduction = "mean" ∨ reduction = "max" then
    .ok { modelIsModule := modelIsModule, ph := ph, pw := pw, overlap := o,
          batchSize := bs, downRatio := dr, up := up, reduction := reduction }
  else .error .assertionError

/-- True exactly on a successful (non-raising) result. -/
def exceptOk {α : Type} : Except PyErr α → Bool
  | .ok _ => true
  | .error _ => false

/-- Stitcher._patch_maps on the dense tensors: assemble the per-patch maps by
fold (or the max fold), then crop to the downsized image size.  ncol and nrow
are the patch-grid counts held by the ImageToPatches state; H and W are the
source image height and width. -/
def patchMapsDense (cfg : StitcherCfg) (H W ncol nrow : ℕ) (maps : Tensor4) : Tensor3 :=
  let dh := H / cfg.downRatio
  let dw := W / cfg.downRatio
  let k0 := cfg.ph / cfg.downRatio
  let k1 := cfg.pw / cfg.downRatio
  let s0 := k0 - cfg.overlap / cfg.downRatio
  let s1 := k1 - cfg.overlap / cfg.downRatio
  let O0 := ncol * k0 - (ncol - 1) * cfg.overlap / cfg.downRatio
  let O1 := nrow * k1 - (nrow - 1) * cfg.overlap / cfg.downRatio
  let m := if cfg.reduction = "max" then maxFold maps O0 O1 k0 k1 s0 s1
           else foldOp maps O0 O1 k0 k1 s0 s1
  { C := m.C, H := min dh m.H, W := min dw m.W, data := m.data }

/-- Indexing a 3-d tensor on its first axis, as in the expression
ones[1,:,:] of Stitcher._reduce: an IndexError when the index is out of
range, otherwise the selected plane (kept as a broadcastable tensor). -/
def selectChannel3 (t : Tensor3) (j : ℕ) : Except PyErr Tensor3 :=
  if j < t.C then .ok { C := 1, H := t.H, W := t.W, data := fun _ y x => t.data j y x }
  else .error .indexError

/-- Indexing a batch tensor on its channel axis, as in the expression
ones_patches[:,1,:,:] of Stitcher._reduce, followed by the per-patch
unsqueeze(0).unsqueeze(0) and the torch.cat performed inside _patch_maps:
an IndexError when the channel index is out of range, otherwise the batch of
single-channel patches. -/
def selectChannel4 (t : Tensor4) (j : ℕ) : Except PyErr Tensor4 :=
  if j < t.C then
    .ok { N := t.N, C := 1, H := t.H, W := t.W, data := fun l _ y x => t.data l j y x }
  else .error .indexError

/-- torch.div with broadcasting of the single-channel (or 2-d) normalization
map over the channels of the numerator. -/
def divB (a b : Tensor3) : Tensor3 :=
  { C := a.C, H := a.H, W := a.W, data := fun c y x => a.data c y x / b.data 0 y x }

/-- Stitcher._reduce: in mean mode, run the identical patch and fold pipeline
on an all-ones image of the downsized shape and divide by the result; in the
other modes divide by the channel-1 plane of the ones tensor.  C, H and W are
the channel count, height and width of the source image. -/
def reduceDense (cfg : StitcherCfg) (C H W ncol nrow : ℕ) (m : Tensor3) :
    Except PyErr Tensor3 :=
  let dh := H / cfg.downRatio
  let dw := W / cfg.downRatio
  let ones : Tensor3 := { C := C, H := dh, W := dw, data := fun _ _ _ => 1 }
  if cfg.reduction = "mean" then
    match selectChannel4
        (makePatches ones (cfg.ph / cfg.downRatio) (cfg.pw / cfg.downRatio)
          (cfg.overlap / cfg.downRatio)) 1 with
    | .error e => .error e
    | .ok sel => .ok (divB m (patchMapsDense cfg H W ncol nrow sel))
  else
    match selectChannel3 ones 1 with
    | .error e => .error e
    | .ok norm => .ok (divB m norm)

/-- The l-th patch of a batch tensor. -/
def patchAt (b : Tensor4) (l : ℕ) : Tensor3 :=
  { C := b.C, H := b.H, W := b.W, data := fun c y x => b.data l c y x }

/-- Stitcher._inference followed by the torch.cat performed at the start of
Stitcher._patch_maps: batching over a SequentialSampler preserves order and
content, so the concatenation of the per-batch model outputs is one dense
output per patch, in grid order. -/
def denseInference (model : Tensor3 → Tensor3) (b : Tensor4) : Tensor4 :=
  { N := b.N, C := (model (patchAt b 0)).C, H := (model (patchAt b 0)).H,
    W := (model (patchAt b 0)).W,
    data := fun l c y x => (model (patchAt b l)).data c y x }

/-- Stitcher.__call__ without the optional upsample step (up = false): cut the
image into patches, run inference, assemble the maps, reduce. -/
def stitchDense (model : Tensor3 → Tensor3) (img : Tensor3) (cfg : StitcherCfg) :
    Except PyErr Tensor3 :=
  let nrow := countPatches img.H cfg.ph (cfg.ph - cfg.overlap)
  let ncol := countPatches img.W cfg.pw (cfg.pw - cfg.overlap)
  let patches := makePatches img cfg.ph cfg.pw cfg.overlap
  let maps := denseInference model patches
  let pm := patchMapsDense cfg img.H img.W ncol nrow maps
  reduceDense cfg img.C img.H img.W ncol nrow pm

/-- A bounding box [x1, y1, x2, y2]. -/
structure Box where
  x1 : Val
  y1 : Val
  x2 : Val
  y2 : Val
  deriving DecidableEq

/-- The detection dictionary handled by FasterRCNNStitcher: parallel lists of
boxes, integer class labels and confidence scores. -/
structure DetSet where
  boxes : List Box
  labels : List ℤ
  scores : List Val
  deriving DecidableEq

/-- The pixel bounds of one patch in the source image (spec section 3,
TilingLimits). -/
structure TileLimits where
  x_min : Val
  y_min : Val
  x_max : Val
  y_max : Val
  deriving DecidableEq

/-- The box translation of FasterRCNNStitcher._patch_maps: add x_min and
y_min of the patch to both corners. -/
def translateBox (b : Box) (l : TileLimits) : Box :=
  { x1 := b.x1 + l.x_min, y1 := b.y1 + l.y_min,
    x2 := b.x2 + l.x_min, y2 := b.y2 + l.y_min }

/-- The body of the for-loop of FasterRCNNStitcher._patch_maps: extend the
accumulated lists with the translated boxes, the labels and the scores of one
patch. -/
def detAccStep (acc : DetSet) (p : DetSet × TileLimits) : DetSet :=
  { boxes := acc.boxes ++ p.1.boxes.map (fun b => translateBox b p.2),
    labels := acc.labels ++ p.1.labels,
    scores := acc.scores ++ p.1.scores }

/-- FasterRCNNStitcher._patch_maps: fold the accumulation over
zip(maps, limits), starting from empty lists. -/
def frcnnPatchMaps (maps : List DetSet) (limits : List TileLimits) : DetSet :=
  (maps.zip limits).foldl detAccStep { boxes := [], labels := [], scores := [] }

/-- The wording of spec section 4.4, steps 1 and 2, as a definition: translate
every box of every patch by the x_min and y_min of that patch and concatenate
boxes, labels and scores across patches in order.  Stated separately from
frcnnPatchMaps so the two can be compared. -/
def frcnnPatchMapsSpec (maps : List DetSet) (limits : List TileLimits) : DetSet :=
  { boxes := ((maps.zip limits).map (fun p =>
      p.1.boxes.map (fun b => translateBox b p.2))).flatten,
    labels := ((maps.zip limits).map (fun p => p.1.labels)).flatten,
    scores := ((maps.zip limits).map (fun p => p.1.scores)).flatten }

/-- One detection: a box with its label and score. -/
structure DetT where
  box : Box
  label : ℤ
  score : Val
  deriving DecidableEq

/-- The detections of a detection dictionary as a list of triples; parallel
indexing of the three tensors corresponds to zipping the three lists. -/
def detTriples (m : DetSet) : List DetT :=
  (m.boxes.zip (m.labels.zip m.scores)).map
    (fun p => { box := p.1, label := p.2.1, score := p.2.2 })

/-- Rebuild a detection dictionary from a list of detections. -/
def unzipDets (l : List DetT) : DetSet :=
  { boxes := l.map (fun d => d.box), labels := l.map (fun d => d.label),
    scores := l.map (fun d => d.score) }

/-- Area of a box (torchvision convention, x2 larger than x1 for valid boxes). -/
def boxArea (b : Box) : Val := (b.x2 - b.x1) * (b.y2 - b.y1)

/-- Intersection area of two boxes, clamped at zero. -/
def interArea (a b : Box) : Val :=
  max 0 (min a.x2 b.x2 - max a.x1 b.x1) * max 0 (min a.y2 b.y2 - max a.y1 b.y1)

/-- Intersection over union of two boxes. -/
def iouVal (a b : Box) : Val :=
  interArea a b / (boxArea a + boxArea b - interArea a b)

/-- Insert a detection into a list sorted by score descending. -/
def insertDesc (d : DetT) : List DetT → List DetT
  | [] => [d]
  | e :: es => if e.score < d.score then d :: e :: es else e :: insertDesc d es

/-- Sort detections by score descending. -/
def sortDesc (l : List DetT) : List DetT := l.foldr insertDesc []

/-- Greedy suppression pass over a score-sorted list: keep the head, drop
every later detection whose IoU with it strictly exceeds the threshold, and
recurse.  The fuel argument bounds the recursion depth; the length of the
input list is always sufficient. -/
def nmsGo (thr : Val) : ℕ → List DetT → List DetT
  | 0, _ => []
  | _, [] => []
  | fuel + 1, d :: rest =>
      d :: nmsGo thr fuel (rest.filter (fun e => ¬ thr < iouVal d.box e.box))

/-- Embedding of torchvision.ops.nms (an external dependency of
FasterRCNNStitcher._reduce): greedy class-agnostic non-maximum suppression on
detections sorted by score descending, suppressing any box whose IoU with a
kept box strictly exceeds the threshold. -/
def nmsDets (thr : Val) (l : List DetT) : List DetT := nmsGo thr l.length (sortDesc l)

/-- The detections surviving the NMS pass of FasterRCNNStitcher._reduce. -/
def nmsSurvivors (nmsThr : Val) (m : DetSet) : List DetT :=
  nmsDets nmsThr (detTriples m)

/-- FasterRCNNStitcher._reduce: return an empty detection set unchanged;
otherwise run NMS and keep only survivors with score strictly greater than
the score threshold. -/
def frcnnReduce (nmsThr scoreThr : Val) (m : DetSet) : DetSet :=
  if m.boxes.length = 0 then m
  else unzipDets ((nmsSurvivors nmsThr m).filter (fun d => scoreThr < d.score))

/-- The detection stitching pipeline after inference: _patch_maps then
_reduce of FasterRCNNStitcher. -/
def stitchDet (maps : List DetSet) (limits : List TileLimits)
    (nmsThr scoreThr : Val) : DetSet :=
  frcnnReduce nmsThr scoreThr (frcnnPatchMaps maps limits)

/-- Consecutive batches of size bs taken from a list, in order, the last
batch possibly shorter: the iteration order of a DataLoader over a
SequentialSampler.  The fuel argument bounds the recursion; the length of the
list is always sufficient for bs positive. -/
def toBatchesGo {α : Type} (bs : ℕ) : ℕ → List α → List (List α)
  | 0, _ => []
  | _, [] => []
  | fuel + 1, x :: xs => ((x :: xs).take bs) :: toBatchesGo bs fuel ((x :: xs).drop bs)

/-- The batches an inference loop iterates over. -/
def toBatches {α : Type} (bs : ℕ) (l : List α) : List (List α) :=
  if bs = 0 then [] else toBatchesGo bs l.length l

/-- The loop of FasterRCNNStitcher._inference: for each batch the model
returns one detection set per patch of the batch, and the code appends them
with maps.append(*outputs), a call that raises a TypeError unless the batch
produced exactly one output. -/
def frcnnInfGo (model : List Tensor3 → List DetSet) (acc : List DetSet) :
    List (List Tensor3) → Except PyErr (List DetSet)
  | [] => .ok acc
  | b :: bs =>
      match model b with
      | [o] => frcnnInfGo model (acc ++ [o]) bs
      | _ => .error .typeError

/-- FasterRCNNStitcher._inference over an ordered list of patches. -/
def frcnnInference (model : List Tensor3 → List DetSet) (bsz : ℕ)
    (patches : List Tensor3) : Except PyErr (List DetSet) :=
  frcnnInfGo model [] (toBatches bsz patches)

/-- A box whose coordinates lie within the pixel bounds of a patch. -/
def boxInLimit (b : Box) (l : TileLimits) : Prop :=
  l.x_min ≤ b.x1 ∧ b.x2 ≤ l.x_max ∧ l.y_min ≤ b.y1 ∧ b.y2 ≤ l.y_max

/-- A patch-local box whose coordinates lie within the extent of its patch. -/
def localInPatch (b : Box) (l : TileLimits) : Prop :=
  0 ≤ b.x1 ∧ b.x2 ≤ l.x_max - l.x_min ∧ 0 ≤ b.y1 ∧ b.y2 ≤ l.y_max - l.y_min

instance (b : Box) (l : TileLimits) : Decidable (boxInLimit b l) := by
  unfold boxInLimit; infer_instance

instance (b : Box) (l : TileLimits) : Decidable (localInPatch b l) := by
  unfold localInPatch; infer_instance

/-! Concrete inputs used by the claim theorems, counterexamples and witnesses. -/

/-- A 2-channel 2 by 2 image. -/
def img22 : Tensor3 := { C := 2, H := 2, W := 2, data := fun _ _ _ => 0 }

/-- A model returning the constant 5 on a single output channel. -/
def model5 : Tensor3 → Tensor3 :=
  fun _ => { C := 1, H := 2, W := 2, data := fun _ _ _ => 5 }

/-- The stitcher configuration with patch size 2 by 2, overlap 0, down ratio 1. -/
def cfg22 (r : String) : StitcherCfg :=
  { modelIsModule := true, ph := 2, pw := 2, overlap := 0, batchSize := 1,
    downRatio := 1, up := false, reduction := r }

/-- A single-channel 512 by 512 image. -/
def img512 : Tensor3 := { C := 1, H := 512, W := 512, data := fun _ _ _ => 0 }

/-- A model returning an all-ones single-channel map for every patch. -/
def model1s : Tensor3 → Tensor3 :=
  fun _ => { C := 1, H := 256, W := 256, data := fun _ _ _ => 1 }

/-- Patch size 256 by 256, overlap 64, mean reduction, down ratio 1. -/
def cfg512 : StitcherCfg :=
  { modelIsModule := true, ph := 256, pw := 256, overlap := 64, batchSize := 1,
    downRatio := 1, up := false, reduction := "mean" }

/-- One patch whose dense output is the constant minus one. -/
def cmMaps : Tensor4 := { N := 1, C := 1, H := 2, W := 2, data := fun _ _ _ _ => -1 }

/-- Two patches with constant outputs 1 and 2. -/
def wMaps : Tensor4 :=
  { N := 2, C := 1, H := 2, W := 2,
    data := fun l _ _ _ => (if l = 0 then (1 : Val) else 2) }

/-- Two one-pixel patches distinguished by their value. -/
def patchA : Tensor3 := { C := 1, H := 1, W := 1, data := fun _ _ _ => 1 }

/-- Second one-pixel patch. -/
def patchB : Tensor3 := { C := 1, H := 1, W := 1, data := fun _ _ _ => 2 }

/-- A detection model returning one detection set per patch of its input
batch, tagged with the patch value as score. -/
def detModel : List Tensor3 → List DetSet := fun l =>
  l.map (fun p => { boxes := [], labels := [], scores := [p.data 0 0 0] })

/-- One patch detection set with a local box [10,10,20,20]. -/
def c6maps : List DetSet :=
  [{ boxes := [{ x1 := 10, y1 := 10, x2 := 20, y2 := 20 }], labels := [3],
     scores := [9/10] }]

/-- The tiling limits of that patch: x_min 100, y_min 50. -/
def c6limits : List TileLimits :=
  [{ x_min := 100, y_min := 50, x_max := 356, y_max := 306 }]

/-- One detection whose score is exactly 1, used with score threshold 1. -/
def exactScoreDet : DetSet :=
  { boxes := [{ x1 := 0, y1 := 0, x2 := 1, y2 := 1 }], labels := [1], scores := [1] }

/-- A local box reaching far outside its 10 by 10 patch. -/
def escBox : Box := { x1 := 0, y1 := 0, x2 := 50, y2 := 50 }

/-- A detection set whose local box reaches far outside its patch. -/
def escMaps : List DetSet := [{ boxes := [escBox], labels := [1], scores := [1] }]

/-- The limits of a single 10 by 10 patch at the origin. -/
def escLim : TileLimits := { x_min := 0, y_min := 0, x_max := 10, y_max := 10 }

/-- The limits list of that single patch. -/
def escLims : List TileLimits := [escLim]

/-- A detection set whose local box stays inside its patch. -/
def inDet : DetSet :=
  { boxes := [{ x1 := 1, y1 := 1, x2 := 2, y2 := 2 }], labels := [1], scores := [1] }

/-- The limits of a single patch with x_min 100, y_min 50. -/
def inLim : TileLimits := { x_min := 100, y_min := 50, x_max := 356, y_max := 306 }

/-- Detection input with one patch whose box stays inside the patch. -/
def inMaps : List DetSet := [inDet]

/-- The limits list of that patch. -/
def inLims : List TileLimits := [inLim]

/-- A single-channel 2 by 2 image used by the channel-1 witnesses. -/
def imgC1 : Tensor3 := { C := 1, H := 2, W := 2, data := fun _ _ _ => 0 }

/-- A model producing a single-channel constant map of the patch size. -/
def modelC1 : Tensor3 → Tensor3 :=
  fun _ => { C := 1, H := 2, W := 2, data := fun _ _ _ => 1 }

/-! Helper lemmas. -/

/-- The channel count of an extracted patch batch is the channel count of the
source image. -/
lemma makePatches_C (img : Tensor3) (ph pw o : ℕ) :
    (makePatches img ph pw o).C = img.C := rfl

/-- Pointwise form of one max-fold iteration followed by the remaining
iterations, relative to the list of values actually written at a pixel. -/
lemma maxFold_go (maps : Tensor4) (c y x : ℕ) :
    ∀ (pairs : List ((ℕ × ℕ × ℕ × ℕ) × ℕ)) (out : Tensor3), 0 ≤ out.data c y x →
      (pairs.foldl (maxStep maps) out).data c y x =
        (pairs.filterMap (fun p =>
          if p.1.1 ≤ y ∧ y < p.1.2.1 ∧ p.1.2.2.1 ≤ x ∧ x < p.1.2.2.2 then
            some (maps.data p.2 c (y - p.1.1) (x - p.1.2.2.1))
          else none)).foldl max (out.data c y x) := by
  intro pairs
  induction pairs with
  | nil => intro out h; rfl
  | cons p ps ih =>
    intro out h
    rw [List.foldl_cons, List.filterMap_cons]
    by_cases hc : p.1.1 ≤ y ∧ y < p.1.2.1 ∧ p.1.2.2.1 ≤ x ∧ x < p.1.2.2.2
    · have hstep : (maxStep maps out p).data c y x =
          max (out.data c y x) (maps.data p.2 c (y - p.1.1) (x - p.1.2.2.1)) := by
        simp [maxStep, hc]
      rw [if_pos hc, List.foldl_cons,
        ih (maxStep maps out p) (le_trans h (by rw [hstep]; exact le_max_left _ _)),
        hstep]
    · have hstep : (maxStep maps out p).data c y x = out.data c y x := by
        simp only [maxStep, if_neg hc]
        exact max_eq_left h
      rw [if_neg hc, ih (maxStep maps out p) (by rw [hstep]; exact h), hstep]

/-! Claim theorems. -/

/-- Claim C4 counterexample: with a valid model, reduction sum, patch size
(2,2) and overlap 5 the stride 2 - 5 is not positive, yet construction
succeeds, contradicting the claim that construction fails exactly when the
reduction mode, the stride or the model is invalid. -/
theorem C4_counterexample :
    exceptOk (stitcherInit true 2 2 5 1 1 false "sum") = true ∧ (2 : ℕ) ≤ 5 := by
  exact ⟨rfl, by omega⟩

/-- Claim C4 (amended): construction succeeds if and only if the model is a
torch.nn.Module and the reduction mode is one of sum, mean, max; neither the
stride nor any other configuration item is checked at construction time. -/
theorem C4_construction_checks (mv : Bool) (ph pw o bs dr : ℕ) (up : Bool)
    (r : String) :
    exceptOk (stitcherInit mv ph pw o bs dr up r) =
      (mv && (r == "sum" || r == "mean" || r == "max")) := by
  cases mv with
  | false => rfl
  | true =>
    by_cases h : r = "sum" ∨ r = "mean" ∨ r = "max"
    · rw [stitcherInit, if_neg (by simp), if_pos h]
      rcases h with h | h | h <;> simp [exceptOk, h]
    · rw [stitcherInit, if_neg (by simp), if_neg h]
      push_neg at h
      simp [exceptOk, h.1, h.2.1, h.2.2]

/-- Claim C9: a detection dictionary with an empty boxes tensor is returned
unchanged by FasterRCNNStitcher._reduce; NMS and score thresholding are
short-circuited. -/
theorem C9_empty_returned_unchanged (nmsThr scoreThr : Val) (m : DetSet)
    (hb : m.boxes = []) : frcnnReduce nmsThr scoreThr m = m := by
  unfold frcnnReduce
  rw [if_pos (by rw [hb]; rfl)]

/-- Claim C9 witness at the empty detection set. -/
theorem C9_witness :
    frcnnReduce (1/2) 0 { boxes := [], labels := [], scores := [] } =
      { boxes := [], labels := [], scores := [] } :=
  C9_empty_returned_unchanged (1/2) 0 _ rfl

/-- Claim C5 (code bug evaluation): with batch size 2 the detection-mode
inference loop raises a TypeError on the two-output batch because
maps.append receives two arguments, while with batch size 1 it returns one
detection set per patch in the original order. -/
theorem C5_batched_detection_inference :
    frcnnInference detModel 2 [patchA, patchB] = .error .typeError ∧
    frcnnInference detModel 1 [patchA, patchB] =
      .ok [{ boxes := [], labels := [], scores := [1] },
           { boxes := [], labels := [], scores := [2] }] := by
  exact ⟨rfl, rfl⟩

/-- The value of a successful dense stitching result at channel c and pixel
(y, x); none for a raising call. -/
def okValAt (r : Except PyErr Tensor3) (c y x : ℕ) : Option Val :=
  match r with
  | .ok t => some (t.data c y x)
  | .error _ => none

/-- Claim C1 (code bug evaluation): on a 512 by 512 single-channel image with
patch size 256, overlap 64 and mean reduction, the all-ones model does not
yield an all-ones map; the call raises an IndexError because
Stitcher._reduce indexes channel 1 of the single-channel ones tensor. -/
theorem C1_single_channel_mean_raises :
    stitchDense model1s img512 cfg512 = .error .indexError := by
  rfl

/-- Claim C2 (code bug evaluation): at overlap 0 on a 2-channel 2 by 2 image
with one 2 by 2 patch and a model returning the constant 5, sum and mean
reduction return 5 at pixel (0,0,0) but max reduction returns 0: the slice
dropping the last window candidate in Stitcher._max_fold leaves no window at
all, so the three modes are not identical and max is not the simple tiling. -/
theorem C2_overlap_zero_max_differs :
    okValAt (stitchDense model5 img22 (cfg22 "sum")) 0 0 0 = some 5 ∧
    okValAt (stitchDense model5 img22 (cfg22 "mean")) 0 0 0 = some 5 ∧
    okValAt (stitchDense model5 img22 (cfg22 "max")) 0 0 0 = some 0 := by
  refine ⟨?_, ?_, ?_⟩ <;>
    simp [okValAt, stitchDense, reduceDense, patchMapsDense, foldOp, maxFold, maxStep,
      maxLocs, axisLocs, stepRange, makePatches, denseInference, patchAt,
      selectChannel3, selectChannel4, divB, countPatches, cfg22, img22, model5,
      List.range_succ]

/-- Claim C10: for every single-channel image, every model and every
reduction mode among sum, mean and max, the dense stitching call raises an
IndexError: Stitcher._reduce always reads channel 1 of a ones tensor with
the channel count of the input image. -/
theorem C10_single_channel_fails_all_modes (model : Tensor3 → Tensor3)
    (img : Tensor3) (cfg : StitcherCfg) (hC : img.C = 1)
    (hr : cfg.reduction = "sum" ∨ cfg.reduction = "mean" ∨ cfg.reduction = "max") :
    stitchDense model img cfg = .error .indexError := by
  have _ := hr
  by_cases h : cfg.reduction = "mean" <;>
    simp [stitchDense, reduceDense, selectChannel3, selectChannel4, makePatches, h, hC]

/-- Claim C10 witness: a concrete single-channel image under sum reduction. -/
theorem C10_witness :
    stitchDense modelC1 imgC1 (cfg22 "sum") = .error .indexError :=
  C10_single_channel_fails_all_modes modelC1 imgC1 (cfg22 "sum") rfl (Or.inl rfl)

/-- Claim C3 counterexample: a single patch contributing the constant minus
one at pixel (0,0,0); the assembled map holds 0 there, not the maximum of the
contributed values, which is minus one. -/
theorem C3_counterexample :
    maxContribs cmMaps 2 2 2 2 1 1 0 0 0 = [-1] ∧
    (maxFold cmMaps 2 2 2 2 1 1).data 0 0 0 = 0 ∧ ((0 : Val) ≠ -1) := by
  refine ⟨by decide, by decide, by norm_num⟩

/-- Claim C3 (amended): each pixel of the map assembled by
Stitcher._max_fold equals the maximum of zero and the values contributed by
the patches whose written window covers that pixel (the accumulator starts
at zero, so for nonnegative contributions this is exactly the maximum over
covering patches).  The hypothesis restricts to window lists that stay
inside the output buffer, where the embedding matches the tensor writes. -/
theorem C3_max_fold_pointwise (maps : Tensor4) (O0 O1 k0 k1 s0 s1 c y x : ℕ)
    (hLoc : ∀ p ∈ maxLocs O0 O1 k0 k1 s0 s1, p.2.1 ≤ O0 ∧ p.2.2.2 ≤ O1) :
    (maxFold maps O0 O1 k0 k1 s0 s1).data c y x =
      (maxContribs maps O0 O1 k0 k1 s0 s1 c y x).foldl max 0 := by
  have _ := hLoc
  unfold maxFold maxContribs
  exact maxFold_go maps c y x _ _ (le_refl 0)

/-- Claim C3 witness: two overlapping patches with constants 1 and 2; in the
shared row the assembled value is 2. -/
theorem C3_witness : (maxFold wMaps 3 2 2 2 1 1).data 0 1 0 = 2 := by
  rw [C3_max_fold_pointwise wMaps 3 2 2 2 1 1 0 1 0 (by decide)]
  decide

/-- Closed form of the accumulating loop of FasterRCNNStitcher._patch_maps. -/
lemma detAcc_go :
    ∀ (l : List (DetSet × TileLimits)) (acc : DetSet),
      l.foldl detAccStep acc =
        { boxes := acc.boxes ++
            (l.map (fun p => p.1.boxes.map (fun b => translateBox b p.2))).flatten,
          labels := acc.labels ++ (l.map (fun p => p.1.labels)).flatten,
          scores := acc.scores ++ (l.map (fun p => p.1.scores)).flatten } := by
  intro l
  induction l with
  | nil =>
    intro acc
    simp only [List.foldl_nil, List.map_nil, List.flatten_nil, List.append_nil]
  | cons p ps ih =>
    intro acc
    simp [detAccStep, ih, List.append_assoc]

/-- The loop of FasterRCNNStitcher._patch_maps computes exactly the
concatenation of the per-patch translated detections described by the spec. -/
lemma frcnnPatchMaps_eq_spec (maps : List DetSet) (limits : List TileLimits) :
    frcnnPatchMaps maps limits = frcnnPatchMapsSpec maps limits := by
  unfold frcnnPatchMaps frcnnPatchMapsSpec
  rw [detAcc_go]
  simp

/-- Rebuilding a detection dictionary from triples and reading it back as
triples is the identity. -/
lemma detTriples_unzipDets : ∀ l : List DetT, detTriples (unzipDets l) = l := by
  intro l
  induction l with
  | nil => rfl
  | cons d ds ih =>
    show d :: detTriples (unzipDets ds) = d :: ds
    rw [ih]

/-- Membership through the descending insertion. -/
lemma mem_insertDesc {d e : DetT} : ∀ l : List DetT, d ∈ insertDesc e l → d = e ∨ d ∈ l := by
  intro l
  induction l with
  | nil =>
    intro h
    simp only [insertDesc, List.mem_singleton] at h
    exact Or.inl h
  | cons a as ih =>
    intro h
    by_cases hc : a.score < e.score
    · rw [insertDesc, if_pos hc] at h
      simp only [List.mem_cons] at h
      rcases h with h | h | h
      · exact Or.inl h
      · exact Or.inr (by simp [h])
      · exact Or.inr (by simp [h])
    · rw [insertDesc, if_neg hc] at h
      simp only [List.mem_cons] at h
      rcases h with h | h
      · exact Or.inr (by simp [h])
      · rcases ih h with h2 | h2
        · exact Or.inl h2
        · exact Or.inr (by simp [h2])

/-- Membership through the descending sort. -/
lemma mem_sortDesc {d : DetT} : ∀ l : List DetT, d ∈ sortDesc l → d ∈ l := by
  intro l
  induction l with
  | nil => intro h; simp [sortDesc] at h
  | cons a as ih =>
    intro h
    rw [sortDesc, List.foldr_cons] at h
    rcases mem_insertDesc _ h with h | h
    · simp [h]
    · exact List.mem_cons_of_mem _ (ih h)

/-- Membership through the greedy suppression pass. -/
lemma mem_nmsGo {thr : Val} {d : DetT} :
    ∀ (fuel : ℕ) (l : List DetT), d ∈ nmsGo thr fuel l → d ∈ l := by
  intro fuel
  induction fuel with
  | zero => intro l h; simp [nmsGo] at h
  | succ n ih =>
    intro l h
    cases l with
    | nil => simp [nmsGo] at h
    | cons e es =>
      simp only [nmsGo, List.mem_cons] at h
      rcases h with h | h
      · simp [h]
      · exact List.mem_cons_of_mem _ (List.mem_of_mem_filter (ih _ h))

/-- The greedy suppression pass never lengthens the list. -/
lemma length_nmsGo {thr : Val} :
    ∀ (fuel : ℕ) (l : List DetT), (nmsGo thr fuel l).length ≤ l.length := by
  intro fuel
  induction fuel with
  | zero => intro l; simp [nmsGo]
  | succ n ih =>
    intro l
    cases l with
    | nil => simp [nmsGo]
    | cons e es =>
      simp only [nmsGo, List.length_cons]
      have h1 := ih (es.filter (fun e2 => ¬ thr < iouVal e.box e2.box))
      have h2 := List.length_filter_le
        (fun e2 => decide ¬ thr < iouVal e.box e2.box) es
      omega

/-- Descending insertion adds exactly one element. -/
lemma length_insertDesc {d : DetT} :
    ∀ l : List DetT, (insertDesc d l).length = l.length + 1 := by
  intro l
  induction l with
  | nil => rfl
  | cons a as ih =>
    by_cases hc : a.score < d.score
    · rw [insertDesc, if_pos hc]; rfl
    · rw [insertDesc, if_neg hc]
      simp [ih]

/-- Descending sort preserves length. -/
lemma length_sortDesc : ∀ l : List DetT, (sortDesc l).length = l.length := by
  intro l
  induction l with
  | nil => rfl
  | cons a as ih =>
    rw [sortDesc, List.foldr_cons, length_insertDesc]
    simp [sortDesc] at ih
    simp [ih]

/-- There are at most as many detection triples as boxes. -/
lemma length_detTriples (m : DetSet) : (detTriples m).length ≤ m.boxes.length := by
  simp only [detTriples, List.length_map, List.length_zip]
  omega

/-- FasterRCNNStitcher._reduce never increases the number of boxes. -/
lemma reduce_boxes_length (nmsThr scoreThr : Val) (m : DetSet) :
    (frcnnReduce nmsThr scoreThr m).boxes.length ≤ m.boxes.length := by
  unfold frcnnReduce
  split
  · exact le_refl _
  · simp only [unzipDets, List.length_map]
    calc (List.filter (fun d => decide (scoreThr < d.score)) (nmsSurvivors nmsThr m)).length
        ≤ (nmsSurvivors nmsThr m).length := List.length_filter_le _ _
      _ ≤ (sortDesc (detTriples m)).length := length_nmsGo _ _
      _ = (detTriples m).length := length_sortDesc _
      _ ≤ m.boxes.length := length_detTriples m

/-- Every box surviving FasterRCNNStitcher._reduce is one of the input boxes. -/
lemma reduce_boxes_subset (nmsThr scoreThr : Val) (m : DetSet) :
    ∀ b ∈ (frcnnReduce nmsThr scoreThr m).boxes, b ∈ m.boxes := by
  unfold frcnnReduce
  split
  · intro b hb; exact hb
  · intro b hb
    simp only [unzipDets, List.mem_map] at hb
    rcases hb with ⟨d, hd, rfl⟩
    have h1 : d ∈ nmsSurvivors nmsThr m := List.mem_of_mem_filter hd
    have h2 : d ∈ sortDesc (detTriples m) := mem_nmsGo _ _ h1
    have h3 : d ∈ detTriples m := mem_sortDesc _ h2
    simp only [detTriples, List.mem_map] at h3
    rcases h3 with ⟨p, hp, rfl⟩
    exact (List.of_mem_zip hp).1

/-- Every assembled box arises as the translation of some local box by the
limits of its patch. -/
lemma patchMaps_boxes (maps : List DetSet) (limits : List TileLimits) :
    ∀ b ∈ (frcnnPatchMaps maps limits).boxes,
      ∃ p ∈ maps.zip limits, ∃ b0 ∈ p.1.boxes, b = translateBox b0 p.2 := by
  rw [frcnnPatchMaps_eq_spec]
  intro b hb
  simp only [frcnnPatchMapsSpec, List.mem_flatten, List.mem_map] at hb
  rcases hb with ⟨s, ⟨p, hp, rfl⟩, hbs⟩
  rcases List.mem_map.mp hbs with ⟨b0, hb0, rfl⟩
  exact ⟨p, hp, b0, hb0, rfl⟩

/-- Claim C6: the assembled detection set is exactly the concatenation, in
patch order, of the per-patch detections with each box translated by the
x_min and y_min of its patch and labels and scores untouched; in particular
the local box [10,10,20,20] in the patch at (x_min 100, y_min 50) becomes the
global box [110,60,120,70] with its label 3 and score 9/10 preserved. -/
theorem C6_box_translation :
    (∀ (maps : List DetSet) (limits : List TileLimits),
      frcnnPatchMaps maps limits = frcnnPatchMapsSpec maps limits) ∧
    frcnnPatchMaps c6maps c6limits =
      { boxes := [{ x1 := 110, y1 := 60, x2 := 120, y2 := 70 }], labels := [3],
        scores := [9/10] } := by
  refine ⟨fun maps limits => frcnnPatchMaps_eq_spec maps limits, ?_⟩
  simp only [frcnnPatchMaps, c6maps, c6limits, List.zip_cons_cons, List.zip_nil_right,
    List.foldl_cons, List.foldl_nil, detAccStep, translateBox, List.map_cons, List.map_nil,
    List.nil_append]
  norm_num

/-- Claim C7: when the boxes tensor is nonempty, the result of
FasterRCNNStitcher._reduce is exactly the NMS survivors filtered by the
strict comparison score greater than score_threshold: a survivor whose score
is less than or equal to the threshold (in particular, exactly equal) is
discarded, and every survivor whose score strictly exceeds it is retained. -/
theorem C7_score_threshold_strict (nmsThr scoreThr : Val) (m : DetSet)
    (hm : m.boxes ≠ []) :
    detTriples (frcnnReduce nmsThr scoreThr m) =
      (nmsSurvivors nmsThr m).filter (fun d => scoreThr < d.score) ∧
    (∀ d ∈ nmsSurvivors nmsThr m, d.score ≤ scoreThr →
      d ∉ detTriples (frcnnReduce nmsThr scoreThr m)) ∧
    (∀ d ∈ nmsSurvivors nmsThr m, scoreThr < d.score →
      d ∈ detTriples (frcnnReduce nmsThr scoreThr m)) := by
  have h0 : frcnnReduce nmsThr scoreThr m =
      unzipDets ((nmsSurvivors nmsThr m).filter (fun d => scoreThr < d.score)) := by
    rw [frcnnReduce, if_neg (fun h => hm (List.length_eq_zero.mp h))]
  have h1 : detTriples (frcnnReduce nmsThr scoreThr m) =
      (nmsSurvivors nmsThr m).filter (fun d => scoreThr < d.score) := by
    rw [h0, detTriples_unzipDets]
  refine ⟨h1, ?_, ?_⟩
  · intro d hd hle hmem
    rw [h1] at hmem
    have h2 := (List.mem_filter.mp hmem).2
    simp only [decide_eq_true_eq] at h2
    exact absurd h2 (not_lt.mpr hle)
  · intro d hd hlt
    rw [h1]
    exact List.mem_filter.mpr ⟨hd, by simpa using hlt⟩

/-- Claim C7 witness: a detection whose score equals the threshold exactly is
excluded from the final result. -/
theorem C7_witness : detTriples (frcnnReduce 1 1 exactScoreDet) = [] := by
  rw [(C7_score_threshold_strict 1 1 exactScoreDet (by decide)).1]
  decide

/-- Claim C8 counterexample: a single patch with limits [0,10) by [0,10)
whose model reports the local box [0,0,50,50]; the stitched output contains
that box translated, which does not lie within the union of the patch
boxes. -/
theorem C8_counterexample :
    ¬ (∀ b ∈ (stitchDet escMaps escLims 1 0).boxes, ∃ l ∈ escLims, boxInLimit b l) := by
  intro h
  have hsd : (stitchDet escMaps escLims 1 0).boxes = [escBox] := by
    norm_num [stitchDet, frcnnReduce, frcnnPatchMaps, detAccStep, translateBox,
      escMaps, escLims, escBox, escLim, nmsSurvivors, nmsDets, nmsGo, detTriples,
      sortDesc, insertDesc, unzipDets]
  have hb := h escBox (by rw [hsd]; simp)
  rcases hb with ⟨l, hl, hxl⟩
  have hl0 : l = escLim := by simpa [escLims] using hl
  rw [hl0] at hxl
  norm_num [boxInLimit, escBox, escLim] at hxl

/-- Claim C8 (amended): the stitched detection output never holds more
detections than the concatenated per-patch input; and provided every
patch-local box lies within the extent of its own patch, every output box
lies within the union of the patch boxes.  Without that hypothesis the
containment fails, since the sole coordinate transform is a translation. -/
theorem C8_output_bounds (maps : List DetSet) (limits : List TileLimits)
    (nmsThr scoreThr : Val) :
    (stitchDet maps limits nmsThr scoreThr).boxes.length ≤
      (frcnnPatchMaps maps limits).boxes.length ∧
    ((∀ p ∈ maps.zip limits, ∀ b ∈ p.1.boxes, localInPatch b p.2) →
      ∀ b ∈ (stitchDet maps limits nmsThr scoreThr).boxes,
        ∃ l ∈ limits, boxInLimit b l) := by
  constructor
  · exact reduce_boxes_length nmsThr scoreThr (frcnnPatchMaps maps limits)
  · intro hloc b hb
    have hb2 : b ∈ (frcnnPatchMaps maps limits).boxes :=
      reduce_boxes_subset nmsThr scoreThr _ b hb
    rcases patchMaps_boxes maps limits b hb2 with ⟨p, hp, b0, hb0, rfl⟩
    refine ⟨p.2, (List.of_mem_zip hp).2, ?_⟩
    have hl := hloc p hp b0 hb0
    obtain ⟨h1, h2, h3, h4⟩ := hl
    refine ⟨?_, ?_, ?_, ?_⟩ <;> simp only [translateBox] <;> linarith

/-- Claim C8 witness: an in-patch local box [1,1,2,2] in the patch with
limits (100, 50, 356, 306) stitches to a box lying inside that patch box. -/
theorem C8_witness :
    boxInLimit { x1 := 101, y1 := 51, x2 := 102, y2 := 52 }
      { x_min := 100, y_min := 50, x_max := 356, y_max := 306 } := by
  have hmem : ({ x1 := 101, y1 := 51, x2 := 102, y2 := 52 } : Box) ∈
      (stitchDet inMaps inLims 1 0).boxes := by
    have hsd : (stitchDet inMaps inLims 1 0).boxes =
        [{ x1 := 101, y1 := 51, x2 := 102, y2 := 52 }] := by
      norm_num [stitchDet, frcnnReduce, frcnnPatchMaps, detAccStep, translateBox,
        inMaps, inLims, inDet, inLim, nmsSurvivors, nmsDets, nmsGo, detTriples,
        sortDesc, insertDesc, unzipDets]
    rw [hsd]; simp
  have hloc : ∀ p ∈ inMaps.zip inLims, ∀ b ∈ p.1.boxes, localInPatch b p.2 := by
    intro p hp b hbp
    have hp0 : p = (inDet, inLim) := by simpa [inMaps, inLims] using hp
    rw [hp0] at hbp
    have hb0 : b = { x1 := 1, y1 := 1, x2 := 2, y2 := 2 } := by
      simpa [inDet] using hbp
    rw [hp0, hb0]
    norm_num [localInPatch, inLim]
  have h := (C8_output_bounds inMaps inLims 1 0).2 hloc
    { x1 := 101, y1 := 51, x2 := 102, y2 := 52 } hmem
  rcases h with ⟨l, hl, hxl⟩
  have hl0 : l = inLim := by simpa [inLims] using hl
  rw [hl0] at hxl
  simpa [inLim] using hxl

end Stitching
